import Mathlib

/-
  Verification of the vector2d feature preprocessing and SCARF/SimCLR
  pretraining code.

  Shallow embedding conventions:
  * Decoded images are modelled by `PImage`: a channels/height/width shape
    together with total rational-valued pixel data indexed by
    (channel, row, column).  Decoding raw entries (paths / byte blobs) is
    external to the embedded code, so the per-row read functions receive an
    `Option PImage` (`none` models an entry whose decode produced a
    non-tensor result).
  * External collaborators (`grayscale`, `resize_image`, the torch
    square-root / exp / log primitives) are passed in as function
    parameters, since their implementations live outside this repository.
  * Machine floats are modelled by `ℚ`; Python `n / 2` comparisons on
    integers are translated to exact `2 * _` comparisons.
  * Randomness (`np.random.rand(...).argsort`) is modelled by quantifying
    over an arbitrary per-row permutation, which is exactly the set of
    values the argsort of almost-surely-distinct uniform draws ranges over.
-/

/-- A decoded image tensor in channels-first layout, as produced by
`read_image_from_path` / `read_image_from_bytes_obj`.  `data c h w` is the
pixel value at channel `c`, row `h`, column `w`; values outside the
`channels × height × width` shape are irrelevant junk. -/
structure PImage where
  channels : ℕ
  height : ℕ
  width : ℕ
  data : ℕ → ℕ → ℕ → ℚ

/-- Failure modes of `_read_image_if_bytes_obj_and_resize` that surface as
Python exceptions: the `assert img_num_channels == 1` (AssertionError), the
channel-mismatch `ValueError` of the non-user-specified branch, and the
final size-mismatch `ValueError`. -/
inductive RdErr where
  | assertFail
  | channelMismatch
  | sizeMismatch
deriving DecidableEq

/-- Result of the per-row read function: `unreadable` models the
`return None` taken when the decoded entry is not a tensor (after the
"cannot be read" warning), `err` models a raised exception, and `ok`
carries the processed image together with whether the channel-reconciliation
warning was logged. -/
inductive RdRes where
  | unreadable
  | err (e : RdErr)
  | ok (img : PImage) (warned : Bool)

/-- `torch.nn.functional.pad(img, [0, 0, 0, 0, 0, extra])`: appends `extra`
zero-filled channels after the existing ones. -/
def pad_zero_channels (im : PImage) (extra : ℕ) : PImage :=
  { channels := im.channels + extra
    height := im.height
    width := im.width
    data := fun c h w => if c < im.channels then im.data c h w else 0 }

/-- `img.type(torch.float32) / 255`: divides every pixel by 255, keeping the
shape. -/
def rescale_to_unit (im : PImage) : PImage :=
  { im with data := fun c h w => im.data c h w / 255 }

/-- `Vector2DFeatureMixin._read_image_if_bytes_obj_and_resize` (standard,
non-pretrained path), after the external decode step.  Parameters:
`gray` models the external `grayscale` helper, `rz img h w` models
`resize_image(img, (h, w), resize_method)` (the resize method is folded
into `rz`; the `standardize_image` argument is unused by the source body
and is omitted). -/
def read_image_if_bytes_obj_and_resize
    (gray : PImage → PImage) (rz : PImage → ℕ → ℕ → PImage)
    (img_width img_height : ℕ) (should_resize : Bool) (num_channels : ℕ)
    (user_specified_num_channels : Bool) (img_entry : Option PImage) : RdRes :=
  match img_entry with
  | none => RdRes.unreadable
  | some img0 =>
    let img_num_channels := img0.channels
    if img_num_channels ≠ 1 then RdRes.err RdErr.assertFail
    else
      -- Convert to grayscale if needed.
      let step := if num_channels = 1 ∧ img_num_channels ≠ 1
        then (gray img0, 1) else (img0, img_num_channels)
      let img1 := step.1
      let c1 := step.2
      let img2 := if should_resize then rz img1 img_height img_width else img1
      if user_specified_num_channels then
        -- Number of channels is specified by the user: pad, never trim.
        let img3 := if c1 < num_channels
          then pad_zero_channels img2 (num_channels - c1) else img2
        let warned := decide (c1 ≠ num_channels)
        if img3.height ≠ img_height ∨ img3.width ≠ img_width
          then RdRes.err RdErr.sizeMismatch
          else RdRes.ok (rescale_to_unit img3) warned
      else
        -- If the image isn't like the first image, raise exception
        if c1 ≠ num_channels then RdRes.err RdErr.channelMismatch
        else if img2.height ≠ img_height ∨ img2.width ≠ img_width
          then RdRes.err RdErr.sizeMismatch
          else RdRes.ok (rescale_to_unit img2) false

/-- The same function with the grayscale-conversion branch deleted: the
claim-side description of the standard read path in which the branch
guarded by `num_channels == 1 and img_num_channels != 1` is unreachable. -/
def read_image_no_grayscale_branch
    (rz : PImage → ℕ → ℕ → PImage)
    (img_width img_height : ℕ) (should_resize : Bool) (num_channels : ℕ)
    (user_specified_num_channels : Bool) (img_entry : Option PImage) : RdRes :=
  match img_entry with
  | none => RdRes.unreadable
  | some img0 =>
    let img_num_channels := img0.channels
    if img_num_channels ≠ 1 then RdRes.err RdErr.assertFail
    else
      let c1 := img_num_channels
      let img2 := if should_resize then rz img0 img_height img_width else img0
      if user_specified_num_channels then
        let img3 := if c1 < num_channels
          then pad_zero_channels img2 (num_channels - c1) else img2
        let warned := decide (c1 ≠ num_channels)
        if img3.height ≠ img_height ∨ img3.width ≠ img_width
          then RdRes.err RdErr.sizeMismatch
          else RdRes.ok (rescale_to_unit img3) warned
      else
        if c1 ≠ num_channels then RdRes.err RdErr.channelMismatch
        else if img2.height ≠ img_height ∨ img2.width ≠ img_width
          then RdRes.err RdErr.sizeMismatch
          else RdRes.ok (rescale_to_unit img2) false

/-- `Vector2DFeatureMixin._infer_number_of_channels`.  `num_channels_in_image`
is the channels field of the decoded tensor; a Python comparison
`channel_frequency[c] > n_images / 2` (exact float division) is the exact
integer comparison `2 * count > n`. -/
def infer_number_of_channels (image_sample : List PImage) : ℕ :=
  if 2 * (image_sample.map (fun x => x.channels)).count 1 > image_sample.length then 1
  else if 2 * (image_sample.map (fun x => x.channels)).count 2 > image_sample.length then 2
  else if 2 * (image_sample.map (fun x => x.channels)).count 4 > image_sample.length then 4
  else 3

/-- Python 3 `round` on an exact value: round-half-to-even (banker's
rounding), as applied by `int(round(height_avg))`. -/
def python_round (q : ℚ) : ℤ :=
  let f := ⌊q⌋
  let r := q - f
  if r < 1/2 then f
  else if 1/2 < r then f + 1
  else if f % 2 = 0 then f else f + 1

/-- `Vector2DFeatureMixin._set_image_and_height_equal_for_encoder`: when the
encoder requires equal dimensions and they differ, both are set to
`min(width, height)`.  Takes and returns `(width, height)` as the source
does. -/
def set_image_and_height_equal_for_encoder
    (requires_equal_dimensions : Bool) (width height : ℤ) : ℤ × ℤ :=
  if requires_equal_dimensions ∧ height ≠ width
    then (min width height, min width height)
    else (width, height)

/-- `Vector2DFeatureMixin._infer_image_size`: average the sample heights and
widths (`shape[1]` and `shape[2]` of the channels-first tensors), round,
cap at the configured maxima, then apply the equal-dimension adjustment.
Returns `(height, width)`. -/
def infer_image_size (image_sample : List PImage) (max_height max_width : ℕ)
    (requires_equal_dimensions : Bool) : ℤ × ℤ :=
  let height_avg : ℚ := (image_sample.map (fun x => (x.height : ℚ))).sum / image_sample.length
  let width_avg : ℚ := (image_sample.map (fun x => (x.width : ℚ))).sum / image_sample.length
  let height := min (python_round height_avg) (max_height : ℤ)
  let width := min (python_round width_avg) (max_width : ℤ)
  let wh := set_image_and_height_equal_for_encoder requires_equal_dimensions width height
  (wh.2, wh.1)

/-- Claim-side formulation of image-size inference: height is
`min(round(mean sample heights), max_height)`, width analogous, and when
the encoder requires equal dimensions both are unconditionally set to
`min(width, height)`. -/
def infer_image_size_claim (image_sample : List PImage) (max_height max_width : ℕ)
    (requires_equal_dimensions : Bool) : ℤ × ℤ :=
  let mean_height : ℚ := (image_sample.map (fun x => (x.height : ℚ))).sum / image_sample.length
  let mean_width : ℚ := (image_sample.map (fun x => (x.width : ℚ))).sum / image_sample.length
  let height := min (python_round mean_height) (max_height : ℤ)
  let width := min (python_round mean_width) (max_width : ℤ)
  if requires_equal_dimensions then (min width height, min width height)
  else (height, width)

/-- Failure of `_finalize_preprocessing_parameters` when neither an explicit
channel count, nor inference, nor a readable first sample image is
available. -/
inductive FinErr where
  | numChannelsUnknown
deriving DecidableEq

/-- The channel-count decision of
`Vector2DFeatureMixin._finalize_preprocessing_parameters` (the block
computing `num_channels` and `user_specified_num_channels`).
`explicit_num_channels` models `preprocessing_parameters[NUM_CHANNELS]`,
where `some 0` and `none` are both falsy in the Python truthiness test.
Returns `(num_channels, user_specified_num_channels)`. -/
def finalize_num_channels (explicit_num_channels : Option ℕ)
    (infer_image_dimensions : Bool) (sample : List PImage) :
    Except FinErr (ℕ × Bool) :=
  if explicit_num_channels.getD 0 ≠ 0 then
    Except.ok (explicit_num_channels.getD 0, true)
  else if infer_image_dimensions then
    Except.ok (infer_number_of_channels sample, true)
  else
    match sample with
    | x :: _ => Except.ok (x.channels, false)
    | [] => Except.error FinErr.numChannelsUnknown

/-- A row of the processed column / of the h5 dataset: rational pixel data
indexed by (channel, row, column), meaningful within the finalized
(num_channels, height, width) shape. -/
def H5Row : Type := ℕ → ℕ → ℕ → ℚ

/-- The numpy/h5py broadcast error raised when the shape of the assigned
value does not match the shape of the slice being assigned. -/
inductive H5Err where
  | broadcastMismatch
deriving DecidableEq

/-- The assignment `image_dataset[i, :height, :width, :] = res` from
`add_feature_data`, acting on row `i` of the dataset of shape
`(num_images, C, H, W)` with `res` of the finalized shape `(C, H, W)`.
The slice `[:H, :W, :]` of the row has shape
`(min H C, min W H, W)` — the channel axis is sliced by the height and the
height axis by the width — so for positive dimensions the assignment
succeeds exactly when that shape equals the shape of `res`, i.e. when
`C ≤ H` and `H ≤ W`; otherwise numpy raises a broadcast error. -/
def slice_write_row (C H W : ℕ) (old res : H5Row) : Except H5Err H5Row :=
  if min H C = C ∧ min W H = H then
    Except.ok (fun c h w =>
      if c < min H C ∧ h < min W H ∧ w < W then res c h w else old c h w)
  else Except.error H5Err.broadcastMismatch

/-- Point update of the dataset at row index `i`. -/
def update_row (ds : ℕ → H5Row) (i : ℕ) (r : H5Row) : ℕ → H5Row :=
  fun j => if j = i then r else ds j

/-- The all-zero row: h5py datasets are created zero-filled. -/
def zero_row : H5Row := fun _ _ _ => 0

/-- The `for i, img_entry in enumerate(abs_path_column)` write loop of the
on-disk branch of `add_feature_data`: read each row, write the result (or
the default gray image on failure) into the dataset slice, and count the
failures. -/
def h5_write_loop {α : Type} (C H W : ℕ) (read_fn : α → Option H5Row)
    (default_image : H5Row) :
    List α → ℕ → (ℕ → H5Row) → ℕ → Except H5Err ((ℕ → H5Row) × ℕ)
  | [], _, ds, failed => Except.ok (ds, failed)
  | x :: rest, i, ds, failed =>
    match read_fn x with
    | some res =>
      (slice_write_row C H W (ds i) res).bind fun r =>
        h5_write_loop C H W read_fn default_image rest (i + 1) (update_row ds i r) failed
    | none =>
      (slice_write_row C H W (ds i) default_image).bind fun r =>
        h5_write_loop C H W read_fn default_image rest (i + 1) (update_row ds i r) (failed + 1)

/-- The on-disk branch of `add_feature_data`: allocate a zero-filled dataset
of shape `(len(column), C, H, W)` and run the write loop.  Returns the
final dataset together with `num_failed_image_reads`. -/
def add_feature_data_on_disk {α : Type} (C H W : ℕ) (read_fn : α → Option H5Row)
    (default_image : H5Row) (column : List α) : Except H5Err ((ℕ → H5Row) × ℕ) :=
  h5_write_loop C H W read_fn default_image column 0 (fun _ => zero_row) 0

/-- The processed column of the on-disk branch:
`proc_df[...] = np.arange(num_images)`. -/
def on_disk_proc_column {α : Type} (column : List α) : List ℕ :=
  List.range column.length

/-- The in-memory branch of `add_feature_data`: map the read function over
the column and substitute the default gray image for every row that did not
produce an array. -/
def in_memory_proc_column {α : Type} (read_fn : α → Option H5Row)
    (default_image : H5Row) (column : List α) : List H5Row :=
  column.map (fun x => (read_fn x).getD default_image)

/-- `num_failed_image_reads` of the in-memory branch: `proc_col.isna().sum()`,
i.e. the number of rows whose read returned a non-array. -/
def num_failed_image_reads {α : Type} (read_fn : α → Option H5Row)
    (column : List α) : ℕ :=
  (column.map read_fn).countP (fun r => r.isNone)

/-- The aggregate warning after the full pass: the failure count is logged
exactly when it is positive. -/
def failed_reads_warning (n : ℕ) : Option ℕ :=
  if n > 0 then some n else none

/-- Equality of two rows as arrays of the finalized shape `(C, H, W)`. -/
def row_eq_on_shape (C H W : ℕ) (r1 r2 : H5Row) : Prop :=
  ∀ c h w, c < C → h < H → w < W → r1 c h w = r2 c h w

/-- `ScarfModel.__init__`:
`num_corrupted_features = math.floor(corruption_rate * len(input_features))`. -/
def scarf_num_corrupted_features (corruption_rate : ℚ) (num_features : ℕ) : ℤ :=
  ⌊corruption_rate * num_features⌋

/-- The corruption mask of `ScarfModel._corrupt`: the row
`[1] * k + [0] * (m - k)` (from `mask[:, :k] = 1`) shuffled along the
feature axis.  `shuffle_along_axis` (argsort of i.i.d. uniform draws)
applies an arbitrary permutation independently to each row, modelled by the
per-row permutation family `perm`. -/
def corruption_mask (corruption_rate : ℚ) (m batch_size : ℕ)
    (perm : Fin batch_size → Equiv.Perm (Fin m)) : Fin batch_size → Fin m → ℕ :=
  fun i j =>
    if ((perm i j : Fin m) : ℤ) < scarf_num_corrupted_features corruption_rate m
    then 1 else 0

/-- Dot product of two embedding vectors. -/
def dotq (d : ℕ) (u v : Fin d → ℚ) : ℚ := ∑ t, u t * v t

/-- `torch.nn.CosineSimilarity`: `u · v / max(‖u‖‖v‖, eps)`, with the
external square root passed in as `sqrtf`. -/
def cosine_similarity (d : ℕ) (eps : ℚ) (sqrtf : ℚ → ℚ) (u v : Fin d → ℚ) : ℚ :=
  dotq d u v / max (sqrtf (dotq d u u) * sqrtf (dotq d v v)) eps

/-- `z = torch.cat((z_i, z_j), dim=0)`. -/
def zcat (B d : ℕ) (z_i z_j : Fin B → Fin d → ℚ) : Fin (2 * B) → Fin d → ℚ :=
  fun p =>
    if h : (p : ℕ) < B then z_i ⟨p, h⟩
    else z_j ⟨(p : ℕ) - B, by have := p.isLt; omega⟩

/-- The 2B × 2B similarity matrix
`sim = similarity_f(z.unsqueeze(1), z.unsqueeze(0)) / temperature`. -/
def sim_matrix (B d : ℕ) (temperature eps : ℚ) (sqrtf : ℚ → ℚ)
    (z_i z_j : Fin B → Fin d → ℚ) : Fin (2 * B) → Fin (2 * B) → ℚ :=
  fun p q =>
    cosine_similarity d eps sqrtf (zcat B d z_i z_j p) (zcat B d z_i z_j q)
      / temperature

/-- The similarity matrix addressed with plain natural indices (out-of-range
entries are junk and never used in range). -/
def sim_at (B d : ℕ) (temperature eps : ℚ) (sqrtf : ℚ → ℚ)
    (z_i z_j : Fin B → Fin d → ℚ) (p q : ℕ) : ℚ :=
  if h : p < 2 * B ∧ q < 2 * B then
    sim_matrix B d temperature eps sqrtf z_i z_j ⟨p, h.1⟩ ⟨q, h.2⟩
  else 0

/-- `torch.cat((torch.diag(sim, Bc), torch.diag(sim, -Bc)), dim=0)` for a
runtime batch `Br` and construction batch `Bc`: each diagonal of offset
`±Bc` of the `2Br × 2Br` matrix has `max(0, 2Br - Bc)` entries. -/
def positive_samples_list (Bc Br d : ℕ) (temperature eps : ℚ) (sqrtf : ℚ → ℚ)
    (z_i z_j : Fin Br → Fin d → ℚ) : List ℚ :=
  ((List.range (2 * Br - Bc)).map fun t =>
    sim_at Br d temperature eps sqrtf z_i z_j t (t + Bc)) ++
  ((List.range (2 * Br - Bc)).map fun t =>
    sim_at Br d temperature eps sqrtf z_i z_j (t + Bc) t)

/-- `SimCLR_Loss.mask_correlated_samples`: all-ones 2B × 2B boolean matrix
with the main diagonal and the two `±B`-offset diagonals cleared (the loop
clears `mask[i, B+i]` and `mask[B+i, i]` for `i < B`). -/
def mask_correlated_samples (B : ℕ) (p q : Fin (2 * B)) : Bool :=
  decide (p ≠ q ∧ (q : ℕ) ≠ (p : ℕ) + B ∧ (p : ℕ) ≠ (q : ℕ) + B)

/-- Row `p` of the similarity matrix restricted to the mask, in column
order. -/
def row_masked_sims (B d : ℕ) (temperature eps : ℚ) (sqrtf : ℚ → ℚ)
    (z_i z_j : Fin B → Fin d → ℚ) (p : Fin (2 * B)) : List ℚ :=
  ((List.finRange (2 * B)).filter (fun q => mask_correlated_samples B p q)).map
    (fun q => sim_matrix B d temperature eps sqrtf z_i z_j p q)

/-- `sim[self.mask]`: numpy-style boolean indexing flattens the matrix in
row-major order and keeps the entries where the mask is set, i.e. the
concatenation of the masked rows. -/
def flat_masked_sims (B d : ℕ) (temperature eps : ℚ) (sqrtf : ℚ → ℚ)
    (z_i z_j : Fin B → Fin d → ℚ) : List ℚ :=
  (List.finRange (2 * B)).flatMap (row_masked_sims B d temperature eps sqrtf z_i z_j)

/-- `torch.nn.CrossEntropyLoss` on one row of logits with an integer target:
`log(sum(exp(logits))) - logits[label]`, with the external exp and log
passed in as `expf` and `logf`. -/
def cross_entropy_row (expf logf : ℚ → ℚ) (logits : List ℚ) (label : ℕ) : ℚ :=
  logf ((logits.map expf).sum) - logits.getD label 0

/-- The body of `SimCLR_Loss.forward` after the construction/runtime batch
sizes have been checked equal: positives from the two `±B` diagonals
reshaped to a column, negatives from `sim[self.mask].reshape(N, -1)`
(flatten, then rows of `len / N` entries), logits `[positive, negatives]`
per row, summed cross entropy against the all-zero labels, divided by
`N = 2B`. -/
def simclr_core (B d : ℕ) (temperature eps : ℚ) (sqrtf expf logf : ℚ → ℚ)
    (z_i z_j : Fin B → Fin d → ℚ) : ℚ :=
  let N := 2 * B
  let positives := positive_samples_list B B d temperature eps sqrtf z_i z_j
  let flat := flat_masked_sims B d temperature eps sqrtf z_i z_j
  let ncols := flat.length / N
  let labels : List ℕ := List.replicate N 0
  let logits : ℕ → List ℚ := fun p =>
    positives.getD p 0 :: ((flat.drop (p * ncols)).take ncols)
  let loss := ((List.range N).map (fun p =>
    cross_entropy_row expf logf (logits p) (labels.getD p 0))).sum
  loss / (N : ℚ)

/-- Failure modes of `SimCLR_Loss.forward` when the runtime batch differs
from the construction batch: the `reshape(N, 1)` of the concatenated
diagonals fails (RuntimeError), or — had that passed — the boolean mask of
construction shape could not index the runtime similarity matrix.
`assertFailed` models a Python AssertionError; no assert statement occurs
in the source of `SimCLR_Loss`. -/
inductive SimErr where
  | reshapeMismatch
  | maskShapeMismatch
  | assertFailed
deriving DecidableEq

/-- `SimCLR_Loss.forward` for construction batch `Bc` and runtime batch
`Br`: the concatenated `±Bc` diagonals are reshaped to `(2 * Bc, 1)`, which
fails unless they have exactly `2 * Bc` entries; masking with the
construction-sized mask then requires `Br = Bc`. -/
def simclr_forward (Bc Br d : ℕ) (temperature eps : ℚ) (sqrtf expf logf : ℚ → ℚ)
    (z_i z_j : Fin Br → Fin d → ℚ) : Except SimErr ℚ :=
  let positives := positive_samples_list Bc Br d temperature eps sqrtf z_i z_j
  if positives.length = 2 * Bc then
    if h : Br = Bc then
      Except.ok (simclr_core Bc d temperature eps sqrtf expf logf (h ▸ z_i) (h ▸ z_j))
    else Except.error SimErr.maskShapeMismatch
  else Except.error SimErr.reshapeMismatch

/-- The corrupted twin of index `p`: `p + B` for the anchor half,
`p - B` for the corrupted half. -/
def twin_index (B : ℕ) (p : Fin (2 * B)) : Fin (2 * B) :=
  if h : (p : ℕ) < B then ⟨(p : ℕ) + B, by omega⟩
  else ⟨(p : ℕ) - B, by have := p.isLt; omega⟩

/-- Claim-side description of the SimCLR loss: for each of the `2B` rows,
cross entropy with label index 0 over the positive (the row's `±B`-offset
twin) followed by the row's masked negatives, summed and divided by `2B`. -/
def ntxent_loss_claim (B d : ℕ) (temperature eps : ℚ) (sqrtf expf logf : ℚ → ℚ)
    (z_i z_j : Fin B → Fin d → ℚ) : ℚ :=
  (((List.finRange (2 * B)).map (fun p =>
    cross_entropy_row expf logf
      (sim_matrix B d temperature eps sqrtf z_i z_j p (twin_index B p) ::
        row_masked_sims B d temperature eps sqrtf z_i z_j p) 0)).sum) / ((2 * B : ℕ) : ℚ)

/-- `ScarfModel.__init__` constructs its loss as `SimCLR_Loss(128, temperature)`. -/
def scarf_simclr_batch_size : ℕ := 128

/-- Two distinct values cannot each occur more than half the time: their
counts sum to at most the length. -/
lemma count_add_count_le (l : List ℕ) (a b : ℕ) (hab : a ≠ b) :
    l.count a + l.count b ≤ l.length := by
  induction l with
  | nil => simp
  | cons x xs ih =>
    simp only [List.count_cons, List.length_cons, beq_iff_eq]
    rcases eq_or_ne x a with hxa | hxa <;> rcases eq_or_ne x b with hxb | hxb
    · exact absurd (hxa.symm.trans hxb) hab
    · subst hxa
      rw [if_pos rfl, if_neg hxb]
      omega
    · subst hxb
      rw [if_neg hxa, if_pos rfl]
      omega
    · rw [if_neg hxa, if_neg hxb]
      omega

/-- Claim C8: for a non-empty sample, channel inference returns the depth
`d ∈ {1, 2, 4}` whose frequency strictly exceeds half the sample size
(such a majority depth is unique), and returns 3 when no such depth
exists. -/
theorem claim_c8_channel_majority_inference (sample : List PImage)
    (_hne : sample ≠ []) :
    (∀ d : ℕ, (d = 1 ∨ d = 2 ∨ d = 4) →
      2 * (sample.map (fun x => x.channels)).count d > sample.length →
      infer_number_of_channels sample = d) ∧
    ((∀ d : ℕ, (d = 1 ∨ d = 2 ∨ d = 4) →
      2 * (sample.map (fun x => x.channels)).count d ≤ sample.length) →
      infer_number_of_channels sample = 3) := by
  have hlen : (sample.map (fun x => x.channels)).length = sample.length :=
    List.length_map _ _
  constructor
  · rintro d (rfl | rfl | rfl) hgt
    · simp only [infer_number_of_channels]
      rw [if_pos hgt]
    · have h12 := count_add_count_le (sample.map (fun x => x.channels)) 1 2 (by decide)
      simp only [infer_number_of_channels]
      rw [if_neg (by omega), if_pos hgt]
    · have h14 := count_add_count_le (sample.map (fun x => x.channels)) 1 4 (by decide)
      have h24 := count_add_count_le (sample.map (fun x => x.channels)) 2 4 (by decide)
      simp only [infer_number_of_channels]
      rw [if_neg (by omega), if_neg (by omega), if_pos hgt]
  · intro hall
    have h1 := hall 1 (Or.inl rfl)
    have h2 := hall 2 (Or.inr (Or.inl rfl))
    have h4 := hall 4 (Or.inr (Or.inr rfl))
    simp only [infer_number_of_channels]
    rw [if_neg (by omega), if_neg (by omega), if_neg (by omega)]

/-- Witness for C8 at the claim's example: a sample of 10 images of which 6
have a single channel infers `num_channels = 1`. -/
theorem claim_c8_witness :
    infer_number_of_channels
      [⟨1, 4, 4, fun _ _ _ => 0⟩, ⟨1, 4, 4, fun _ _ _ => 0⟩,
       ⟨1, 4, 4, fun _ _ _ => 0⟩, ⟨1, 4, 4, fun _ _ _ => 0⟩,
       ⟨1, 4, 4, fun _ _ _ => 0⟩, ⟨1, 4, 4, fun _ _ _ => 0⟩,
       ⟨3, 4, 4, fun _ _ _ => 0⟩, ⟨3, 4, 4, fun _ _ _ => 0⟩,
       ⟨2, 4, 4, fun _ _ _ => 0⟩, ⟨4, 4, 4, fun _ _ _ => 0⟩] = 1 :=
  (claim_c8_channel_majority_inference _ (List.cons_ne_nil _ _)).1 1
    (Or.inl rfl) (by decide)

/-- Claim C9: image-size inference equals the claim-side formula
`min(round(mean dims), max_dim)` for height and width followed by the
equal-dimension adjustment. -/
theorem claim_c9_image_size_inference (sample : List PImage)
    (max_height max_width : ℕ) (requires_equal_dimensions : Bool)
    (_hne : sample ≠ []) :
    infer_image_size sample max_height max_width requires_equal_dimensions =
      infer_image_size_claim sample max_height max_width requires_equal_dimensions := by
  simp only [infer_image_size, infer_image_size_claim,
    set_image_and_height_equal_for_encoder]
  set h := min (python_round
    ((sample.map (fun x => (x.height : ℚ))).sum / sample.length)) (max_height : ℤ) with hh
  set w := min (python_round
    ((sample.map (fun x => (x.width : ℚ))).sum / sample.length)) (max_width : ℤ) with hw
  by_cases hr : requires_equal_dimensions = true
  · by_cases hhw : h = w
    · rw [if_neg (by simp [hr, hhw]), if_pos hr]
      simp [hhw, min_self]
    · rw [if_pos (by simp [hr, hhw]), if_pos hr]
  · rw [if_neg (by simp [hr]), if_neg hr]

/-- Witness for C9 at the claim's example: a sample with heights
[10, 20, 30] (and equal widths) infers height 20. -/
theorem claim_c9_witness :
    infer_image_size
      [⟨1, 10, 10, fun _ _ _ => 0⟩, ⟨1, 20, 20, fun _ _ _ => 0⟩,
       ⟨1, 30, 30, fun _ _ _ => 0⟩] 100 100 false =
      infer_image_size_claim
        [⟨1, 10, 10, fun _ _ _ => 0⟩, ⟨1, 20, 20, fun _ _ _ => 0⟩,
         ⟨1, 30, 30, fun _ _ _ => 0⟩] 100 100 false ∧
    infer_image_size
      [⟨1, 10, 10, fun _ _ _ => 0⟩, ⟨1, 20, 20, fun _ _ _ => 0⟩,
       ⟨1, 30, 30, fun _ _ _ => 0⟩] 100 100 false = (20, 20) := by
  refine ⟨claim_c9_image_size_inference _ _ _ _ (List.cons_ne_nil _ _), ?_⟩
  have havg : ((([⟨1, 10, 10, fun _ _ _ => 0⟩, ⟨1, 20, 20, fun _ _ _ => 0⟩,
      ⟨1, 30, 30, fun _ _ _ => 0⟩] : List PImage).map (fun x => (x.height : ℚ))).sum
      / ([⟨1, 10, 10, fun _ _ _ => 0⟩, ⟨1, 20, 20, fun _ _ _ => 0⟩,
      ⟨1, 30, 30, fun _ _ _ => 0⟩] : List PImage).length) = 20 := by
    norm_num
  simp only [infer_image_size, set_image_and_height_equal_for_encoder, havg]
  norm_num [python_round]

/-- Claim C6: the standard read path asserts a single-channel source, and
for every input that passes the assertion the grayscale-conversion branch
is dead: deleting it does not change the function. -/
theorem claim_c6_grayscale_branch_unreachable
    (gray : PImage → PImage) (rz : PImage → ℕ → ℕ → PImage)
    (img_width img_height : ℕ) (should_resize : Bool) (num_channels : ℕ)
    (user_specified_num_channels : Bool) :
    (∀ img_entry : Option PImage,
      read_image_if_bytes_obj_and_resize gray rz img_width img_height should_resize
        num_channels user_specified_num_channels img_entry =
      read_image_no_grayscale_branch rz img_width img_height should_resize
        num_channels user_specified_num_channels img_entry) ∧
    (∀ img : PImage, img.channels ≠ 1 →
      read_image_if_bytes_obj_and_resize gray rz img_width img_height should_resize
        num_channels user_specified_num_channels (some img) =
        RdRes.err RdErr.assertFail) := by
  constructor
  · intro img_entry
    cases img_entry with
    | none => rfl
    | some img0 =>
      by_cases hc : img0.channels = 1
      · simp [read_image_if_bytes_obj_and_resize, read_image_no_grayscale_branch, hc]
      · simp [read_image_if_bytes_obj_and_resize, read_image_no_grayscale_branch, hc]
  · intro img h
    simp [read_image_if_bytes_obj_and_resize, h]

/-- Witness for C6: a two-channel decoded image trips the assertion, and
the branchless function agrees with the original on a concrete entry. -/
theorem claim_c6_witness :
    read_image_if_bytes_obj_and_resize id (fun im _ _ => im) 1 1 false 1 false
      (some ⟨2, 1, 1, fun _ _ _ => 0⟩) = RdRes.err RdErr.assertFail ∧
    read_image_if_bytes_obj_and_resize id (fun im _ _ => im) 1 1 false 1 false none =
      read_image_no_grayscale_branch (fun im _ _ => im) 1 1 false 1 false none :=
  ⟨(claim_c6_grayscale_branch_unreachable id (fun im _ _ => im) 1 1 false 1 false).2
      ⟨2, 1, 1, fun _ _ _ => 0⟩ (by decide),
   (claim_c6_grayscale_branch_unreachable id (fun im _ _ => im) 1 1 false 1 false).1 none⟩


/-- Claim C7: channel reconciliation in the standard read path.  For a
decoded single-channel image of the expected size and a target channel
count differing from it: with user-specified channels the image is padded
with zero channels up to `num_channels` (the original channel is kept,
never trimmed) and the warning is logged (`warned = true`); without
user-specified channels the read raises the channel-mismatch
`ValueError`. -/
theorem claim_c7_channel_reconciliation
    (gray : PImage → PImage) (rz : PImage → ℕ → ℕ → PImage)
    (img_width img_height num_channels : ℕ) (img : PImage)
    (hc : img.channels = 1) (hh : img.height = img_height)
    (hw : img.width = img_width) (h1 : 1 ≤ num_channels) (hne : num_channels ≠ 1) :
    read_image_if_bytes_obj_and_resize gray rz img_width img_height false
      num_channels true (some img) =
      RdRes.ok
        ⟨num_channels, img.height, img.width,
          fun c h w => if c < 1 then img.data c h w / 255 else 0⟩ true ∧
    read_image_if_bytes_obj_and_resize gray rz img_width img_height false
      num_channels false (some img) = RdRes.err RdErr.channelMismatch := by
  have hlt1 : 1 < num_channels := by omega
  have hne1 : ((1 : ℕ) ≠ num_channels) := by omega
  constructor
  · simp only [read_image_if_bytes_obj_and_resize, hc, hlt1, hh, hw,
      pad_zero_channels, rescale_to_unit, hne1]
    simp [hlt1, hh, hw, hne1]
    refine ⟨by omega, ?_⟩
    funext c h w
    by_cases hc0 : c = 0
    · rw [if_pos hc0, if_pos (show c < img.channels by omega)]
    · rw [if_neg hc0, if_neg (show ¬c < img.channels by omega), zero_div]
  · simp [read_image_if_bytes_obj_and_resize, hc, hne1]

/-- Witness for C7: a concrete 1-channel 2×2 image with `num_channels = 3`:
the user-specified read pads to three channels and warns, the
non-user-specified read raises. -/
theorem claim_c7_witness :
    read_image_if_bytes_obj_and_resize id (fun im _ _ => im) 2 2 false 3 true
      (some ⟨1, 2, 2, fun _ _ _ => 51⟩) =
      RdRes.ok
        ⟨3, (⟨1, 2, 2, fun _ _ _ => 51⟩ : PImage).height,
          (⟨1, 2, 2, fun _ _ _ => 51⟩ : PImage).width,
          fun c h w =>
            if c < 1 then (⟨1, 2, 2, fun _ _ _ => 51⟩ : PImage).data c h w / 255
            else 0⟩ true ∧
    read_image_if_bytes_obj_and_resize id (fun im _ _ => im) 2 2 false 3 false
      (some ⟨1, 2, 2, fun _ _ _ => 51⟩) = RdRes.err RdErr.channelMismatch :=
  claim_c7_channel_reconciliation id (fun im _ _ => im) 2 2 3
    ⟨1, 2, 2, fun _ _ _ => 51⟩ rfl rfl rfl (by decide) (by decide)

/-- Claim C10: with dimension inference enabled and no explicit (truthy)
`num_channels`, `_finalize_preprocessing_parameters` returns
`user_specified_num_channels = True` together with the inferred channel
count; and with `user_specified_num_channels = True` the per-row read
function can never raise the channel-mismatch `ValueError` reserved for
non-user-specified channels. -/
theorem claim_c10_inferred_channels_user_specified
    (explicit_num_channels : Option ℕ) (sample : List PImage)
    (hexp : explicit_num_channels.getD 0 = 0) :
    finalize_num_channels explicit_num_channels true sample =
      Except.ok (infer_number_of_channels sample, true) ∧
    (∀ (gray : PImage → PImage) (rz : PImage → ℕ → ℕ → PImage)
        (img_width img_height : ℕ) (should_resize : Bool) (num_channels : ℕ)
        (img_entry : Option PImage),
      read_image_if_bytes_obj_and_resize gray rz img_width img_height
        should_resize num_channels true img_entry ≠
        RdRes.err RdErr.channelMismatch) := by
  constructor
  · simp [finalize_num_channels, hexp]
  · intro gray rz img_width img_height should_resize num_channels img_entry
    cases img_entry with
    | none => simp [read_image_if_bytes_obj_and_resize]
    | some img0 =>
      simp only [read_image_if_bytes_obj_and_resize]
      by_cases hc : img0.channels = 1
      · rw [if_neg (by simp [hc]), if_pos trivial]
        split <;> split <;> split <;> split <;> simp
      · rw [if_pos (by simp [hc])]
        simp

/-- Witness for C10: with `num_channels` absent and inference on, the
finalize step marks the inferred count as user-specified, and a concrete
mismatched read with `user_specified_num_channels = true` does not raise
the channel-mismatch error. -/
theorem claim_c10_witness :
    finalize_num_channels none true [⟨3, 2, 2, fun _ _ _ => 0⟩] =
      Except.ok (infer_number_of_channels [⟨3, 2, 2, fun _ _ _ => 0⟩], true) ∧
    read_image_if_bytes_obj_and_resize id (fun im _ _ => im) 2 2 false 4 true
      (some ⟨1, 2, 2, fun _ _ _ => 0⟩) ≠ RdRes.err RdErr.channelMismatch :=
  ⟨(claim_c10_inferred_channels_user_specified none [⟨3, 2, 2, fun _ _ _ => 0⟩] rfl).1,
   (claim_c10_inferred_channels_user_specified none [⟨3, 2, 2, fun _ _ _ => 0⟩] rfl).2
     id (fun im _ _ => im) 2 2 false 4 (some ⟨1, 2, 2, fun _ _ _ => 0⟩)⟩

/-- When `C ≤ H ≤ W` the slice `[:H, :W, :]` covers the whole `(C, H, W)`
row, so the assignment succeeds and the written row agrees with the source
array on the whole shape. -/
lemma slice_write_row_ok (C H W : ℕ) (hCH : C ≤ H) (hHW : H ≤ W)
    (old res : H5Row) :
    ∃ r, slice_write_row C H W old res = Except.ok r ∧
      row_eq_on_shape C H W r res := by
  have hmin1 : min H C = C := min_eq_right hCH
  have hmin2 : min W H = H := min_eq_right hHW
  refine ⟨_, by rw [slice_write_row, if_pos ⟨hmin1, hmin2⟩], ?_⟩
  intro c h w hc hh hw
  exact if_pos ⟨by omega, by omega, hw⟩

/-- The write loop of the on-disk branch, under the slice-compatibility
condition: it returns the dataset with each processed-or-defaulted row
written at its index, together with the failure count accumulated over the
remaining rows; indices below the loop counter are untouched. -/
lemma h5_write_loop_ok {α : Type} (C H W : ℕ) (read_fn : α → Option H5Row)
    (default_image : H5Row) (hCH : C ≤ H) (hHW : H ≤ W) :
    ∀ (xs : List α) (i : ℕ) (ds : ℕ → H5Row) (failed : ℕ),
      ∃ ds2, h5_write_loop C H W read_fn default_image xs i ds failed =
          Except.ok (ds2, failed + xs.countP (fun x => (read_fn x).isNone)) ∧
        (∀ k (hk : k < xs.length),
          row_eq_on_shape C H W (ds2 (i + k))
            ((read_fn (xs.get ⟨k, hk⟩)).getD default_image)) ∧
        (∀ j, j < i → ds2 j = ds j) := by
  intro xs
  induction xs with
  | nil =>
    intro i ds failed
    exact ⟨ds, by simp [h5_write_loop], by intro k hk; simp at hk,
      fun j _ => rfl⟩
  | cons x rest ih =>
    intro i ds failed
    cases hrx : read_fn x with
    | some res =>
      obtain ⟨r, hwr, hr⟩ := slice_write_row_ok C H W hCH hHW (ds i) res
      obtain ⟨ds2, heq, hmain, hlow⟩ := ih (i + 1) (update_row ds i r) failed
      refine ⟨ds2, ?_, ?_, ?_⟩
      · rw [h5_write_loop]
        simp only [hrx, hwr, Except.bind, heq, List.countP_cons,
          Option.isNone_some, Except.ok.injEq, Prod.mk.injEq]
        exact ⟨trivial, by simp⟩
      · intro k hk
        cases k with
        | zero =>
          have hds2 : ds2 i = r := by
            rw [hlow i (by omega), update_row, if_pos rfl]
          intro c h w hc hh hw
          have hget : (x :: rest).get ⟨0, hk⟩ = x := rfl
          rw [Nat.add_zero, hds2, hget, hrx, Option.getD_some]
          exact hr c h w hc hh hw
        | succ k2 =>
          have := hmain k2 (by simpa using hk)
          rw [List.get_cons_succ]
          convert this using 2
          omega
      · intro j hj
        rw [hlow j (by omega), update_row, if_neg (by omega)]
    | none =>
      obtain ⟨r, hwr, hr⟩ := slice_write_row_ok C H W hCH hHW (ds i) default_image
      obtain ⟨ds2, heq, hmain, hlow⟩ := ih (i + 1) (update_row ds i r) (failed + 1)
      refine ⟨ds2, ?_, ?_, ?_⟩
      · rw [h5_write_loop]
        simp only [hrx, hwr, Except.bind, heq, List.countP_cons,
          Option.isNone_none, Except.ok.injEq, Prod.mk.injEq]
        exact ⟨trivial, by simp; try omega⟩
      · intro k hk
        cases k with
        | zero =>
          have hds2 : ds2 i = r := by
            rw [hlow i (by omega), update_row, if_pos rfl]
          intro c h w hc hh hw
          have hget : (x :: rest).get ⟨0, hk⟩ = x := rfl
          rw [Nat.add_zero, hds2, hget, hrx, Option.getD_none]
          exact hr c h w hc hh hw
        | succ k2 =>
          have := hmain k2 (by simpa using hk)
          rw [List.get_cons_succ]
          convert this using 2
          omega
      · intro j hj
        rw [hlow j (by omega), update_row, if_neg (by omega)]

/-- Claim C2 (amended): the in-memory path unconditionally maps every row,
substituting the default gray image exactly at the failed reads, with the
failure count equal to the number of failed rows and the aggregate warning
logged when positive; the on-disk path does the same (one written row per
input row, defaulted at the failed reads, same count, indices `0..N-1`)
provided the finalized shape satisfies `num_channels ≤ height ≤ width` —
the condition under which its slice write succeeds at all.  Outside that
condition the on-disk write raises (the C1 bug) and no processed column is
produced, refuting the unconditional claim (`claim_c2_counterexample`). -/
theorem claim_c2_no_row_dropped {α : Type} (C H W : ℕ)
    (read_fn : α → Option H5Row) (default_image : H5Row) (column : List α) :
    (in_memory_proc_column read_fn default_image column).length = column.length ∧
    (∀ k (hk : k < column.length),
      read_fn (column.get ⟨k, hk⟩) = none →
      (in_memory_proc_column read_fn default_image column).get
        ⟨k, by rwa [in_memory_proc_column, List.length_map]⟩ = default_image) ∧
    num_failed_image_reads read_fn column =
      column.countP (fun x => (read_fn x).isNone) ∧
    (0 < num_failed_image_reads read_fn column →
      failed_reads_warning (num_failed_image_reads read_fn column) =
        some (num_failed_image_reads read_fn column)) ∧
    on_disk_proc_column column = List.range column.length ∧
    (C ≤ H → H ≤ W →
      ∃ ds, add_feature_data_on_disk C H W read_fn default_image column =
        Except.ok (ds, column.countP (fun x => (read_fn x).isNone)) ∧
      ∀ k (hk : k < column.length), read_fn (column.get ⟨k, hk⟩) = none →
        row_eq_on_shape C H W (ds k) default_image) := by
  refine ⟨by simp [in_memory_proc_column], ?_, ?_, ?_, rfl, ?_⟩
  · intro k hk hnone
    simp only [in_memory_proc_column, List.get_eq_getElem, List.getElem_map]
    have hnone2 : read_fn column[k] = none := hnone
    rw [hnone2]
    rfl
  · rw [num_failed_image_reads, List.countP_map]
    rfl
  · intro hpos
    rw [failed_reads_warning, if_pos hpos]
  · intro hCH hHW
    obtain ⟨ds2, heq, hmain, -⟩ :=
      h5_write_loop_ok C H W read_fn default_image hCH hHW column 0
        (fun _ => zero_row) 0
    refine ⟨ds2, by rw [add_feature_data_on_disk, heq, Nat.zero_add], ?_⟩
    intro k hk hnone
    have := hmain k hk
    rw [hnone, Option.getD_none, Nat.zero_add] at this
    exact this

/-- A concrete read function for the C2 witness: the row `true` reads
successfully, the row `false` fails. -/
def c2_read_fn : Bool → Option H5Row :=
  fun b => if b then some (fun _ _ _ => 1) else none

/-- Witness for C2 on a two-row column with one failing row: two processed
rows, failure count 1, warning logged, indices [0, 1], and the failing
on-disk row bit-equal to the default image. -/
theorem claim_c2_witness :
    (in_memory_proc_column c2_read_fn zero_row [true, false]).length = 2 ∧
    num_failed_image_reads c2_read_fn [true, false] = 1 ∧
    failed_reads_warning (num_failed_image_reads c2_read_fn [true, false]) =
      some 1 ∧
    on_disk_proc_column [true, false] = [0, 1] ∧
    (∃ ds, add_feature_data_on_disk 1 1 1 c2_read_fn zero_row [true, false] =
        Except.ok (ds, 1) ∧ row_eq_on_shape 1 1 1 (ds 1) zero_row) := by
  have h := claim_c2_no_row_dropped 1 1 1 c2_read_fn zero_row [true, false]
  have hcount : num_failed_image_reads c2_read_fn [true, false] = 1 :=
    (h.2.2.1).trans (by decide)
  have hcountP : ([true, false].countP (fun x => (c2_read_fn x).isNone)) = 1 := by
    decide
  refine ⟨h.1, hcount, ?_, h.2.2.2.2.1.trans (by decide), ?_⟩
  · rw [hcount]
    decide
  · obtain ⟨ds, heq, hrows⟩ := h.2.2.2.2.2 (le_refl 1) (le_refl 1)
    exact ⟨ds, by rw [heq, hcountP],
      hrows 1 (by decide) rfl⟩

/-- Counterexample to C2 as stated: with the finalized shape
`num_channels = 1`, `height = 2`, `width = 1` (height exceeding width, the
C1 slice bug) the on-disk branch raises the broadcast error on its very
first row, so no processed column is produced at all: the two-row column
does not yield two index entries and its failing row is never replaced by
the default image. -/
theorem claim_c2_counterexample :
    add_feature_data_on_disk 1 2 1 c2_read_fn zero_row [true, false] =
      Except.error H5Err.broadcastMismatch ∧
    ¬∃ ds n, add_feature_data_on_disk 1 2 1 c2_read_fn zero_row [true, false] =
        Except.ok (ds, n) := by
  refine ⟨rfl, ?_⟩
  rintro ⟨ds, n, h⟩
  rw [show add_feature_data_on_disk 1 2 1 c2_read_fn zero_row [true, false] =
    Except.error H5Err.broadcastMismatch from rfl] at h
  exact Except.noConfusion h

/-- A concrete read function for the C1 failing input: every row reads
successfully as an all-ones array. -/
def c1_read_fn : Unit → Option H5Row := fun _ => some (fun _ _ _ => 1)

/-- Claim C1 (code bug): with finalized shape `num_channels = 1`,
`height = 2`, `width = 1` (height exceeding width), the on-disk write
`image_dataset[i, :height, :width, :] = res` slices the channel axis by the
height and the height axis by the width, so the assignment raises a
broadcast error and nothing is stored — while the in-memory path returns
the processed row.  The two paths therefore do not agree for every
finalized parameter set; they do agree whenever `C ≤ H ≤ W`
(`h5_write_loop_ok`). -/
theorem claim_c1_on_disk_write_broadcast_bug :
    add_feature_data_on_disk 1 2 1 c1_read_fn zero_row [()] =
      Except.error H5Err.broadcastMismatch ∧
    in_memory_proc_column c1_read_fn zero_row [()] =
      [fun _ _ _ => (1 : ℚ)] :=
  ⟨rfl, rfl⟩


/-- Claim C3: for a corruption rate in `[0, 1)` the number of corrupted
features `k = floor(rate * num_features)` is fixed at construction
(independent of the row), and every row of the corruption mask — whatever
per-row permutation the row-wise shuffle produced — has exactly `k`
entries set. -/
theorem claim_c3_corruption_mask_row_count (corruption_rate : ℚ)
    (m batch_size : ℕ) (perm : Fin batch_size → Equiv.Perm (Fin m))
    (h0 : 0 ≤ corruption_rate) (h1 : corruption_rate < 1) (i : Fin batch_size) :
    (Finset.univ.filter
      (fun j => corruption_mask corruption_rate m batch_size perm i j = 1)).card =
      (scarf_num_corrupted_features corruption_rate m).toNat := by
  set k : ℤ := scarf_num_corrupted_features corruption_rate m with hk
  have hk0 : 0 ≤ k := Int.floor_nonneg.mpr (mul_nonneg h0 (Nat.cast_nonneg m))
  have hfe : (Finset.univ.filter
      (fun j => corruption_mask corruption_rate m batch_size perm i j = 1)) =
      (Finset.univ.filter (fun j : Fin m => (((perm i) j : ℕ) : ℤ) < k)) := by
    apply Finset.filter_congr
    intro j _
    rw [corruption_mask]
    by_cases hc : (((perm i) j : ℕ) : ℤ) < k
    · rw [if_pos hc]
      simp [hc]
    · rw [if_neg hc]
      simp [hc]
  rw [hfe]
  have hcard : (Finset.univ.filter (fun j : Fin m => (((perm i) j : ℕ) : ℤ) < k)).card
      = (Finset.univ.filter (fun t : Fin m => ((t : ℕ) : ℤ) < k)).card := by
    conv_rhs => rw [← Finset.map_univ_equiv (perm i), Finset.filter_map]
    rw [Finset.card_map]
    apply Finset.card_bij (fun a _ => a) <;> simp
  rw [hcard]
  rcases Nat.eq_zero_or_pos m with hm | hm
  · subst hm
    simp [hk, scarf_num_corrupted_features]
  · have hkm : k < (m : ℤ) := by
      rw [hk, scarf_num_corrupted_features]
      apply Int.floor_lt.mpr
      calc corruption_rate * (m : ℚ) < 1 * (m : ℚ) := by
            apply mul_lt_mul_of_pos_right h1
            exact_mod_cast hm
        _ = ((m : ℤ) : ℚ) := by push_cast; ring
    have hKm : k.toNat < m := by omega
    have hiio : (Finset.univ.filter (fun t : Fin m => ((t : ℕ) : ℤ) < k)) =
        Finset.Iio (⟨k.toNat, hKm⟩ : Fin m) := by
      ext t
      simp only [Finset.mem_filter, Finset.mem_univ, true_and, Finset.mem_Iio,
        Fin.lt_def]
      constructor
      · intro h
        have : (t : ℕ) < k.toNat := Int.lt_toNat.mpr h
        simpa using this
      · intro h
        have : (t : ℕ) < k.toNat := by simpa using h
        exact Int.lt_toNat.mp this
    rw [hiio, Fin.card_Iio]

/-- Witness for C3 at the claim's example: rate 0.6, 10 features gives
`k = 6`, and a 100-row mask (here with the identity shuffle in every row)
has exactly 6 entries set in a row. -/
theorem claim_c3_witness :
    (0 : ℚ) ≤ 3/5 ∧ (3/5 : ℚ) < 1 ∧
    (scarf_num_corrupted_features (3/5) 10).toNat = 6 ∧
    (Finset.univ.filter
      (fun j => corruption_mask (3/5) 10 100 (fun _ => Equiv.refl (Fin 10))
        ⟨0, by norm_num⟩ j = 1)).card = 6 := by
  have h0 : (0 : ℚ) ≤ 3/5 := by norm_num
  have h1 : (3/5 : ℚ) < 1 := by norm_num
  have hk : (scarf_num_corrupted_features (3/5) 10).toNat = 6 := by
    rw [scarf_num_corrupted_features]
    norm_num
    rfl
  refine ⟨h0, h1, hk, ?_⟩
  rw [claim_c3_corruption_mask_row_count (3/5) 10 100
    (fun _ => Equiv.refl (Fin 10)) h0 h1 ⟨0, by norm_num⟩]
  exact hk

/-- Chunking a flatMap of constant-length pieces recovers the pieces: this
is why `sim[mask].reshape(N, -1)` re-aligns the flattened masked entries
with their source rows. -/
lemma flatMap_chunk {α β : Type} (f : α → List β) (c : ℕ) :
    ∀ (l : List α), (∀ a ∈ l, (f a).length = c) →
      ∀ (i : ℕ) (hi : i < l.length),
        ((l.flatMap f).drop (i * c)).take c = f (l.get ⟨i, hi⟩) := by
  intro l
  induction l with
  | nil =>
    intro _ i hi
    simp at hi
  | cons x xs ih =>
    intro hf i hi
    cases i with
    | zero =>
      simp only [List.flatMap_cons, Nat.zero_mul, List.drop_zero,
        List.get_cons_zero]
      rw [← hf x (List.mem_cons_self x xs)]
      exact List.take_left _ _
    | succ j =>
      have hfx := hf x (List.mem_cons_self x xs)
      simp only [List.flatMap_cons, List.get_cons_succ]
      have hstep : (j + 1) * c = (f x).length + j * c := by
        rw [hfx]
        ring
      rw [hstep, List.drop_append]
      exact ih (fun a ha => hf a (List.mem_cons_of_mem x ha)) j (by simpa using hi)

/-- Counting membership in a two-element set splits into the two counts. -/
lemma countP_pair {α : Type} [DecidableEq α] (a b : α) (hab : a ≠ b) :
    ∀ l : List α,
      l.countP (fun x => decide (x = a ∨ x = b)) = l.count a + l.count b := by
  intro l
  induction l with
  | nil => simp
  | cons x xs ih =>
    simp only [List.countP_cons, List.count_cons, ih, beq_iff_eq,
      decide_eq_true_eq]
    rcases eq_or_ne x a with hxa | hxa <;> rcases eq_or_ne x b with hxb | hxb
    · exact absurd (hxa.symm.trans hxb) hab
    · rw [if_pos (Or.inl hxa), if_pos hxa, if_neg hxb]
      omega
    · rw [if_pos (Or.inr hxb), if_neg hxa, if_pos hxb]
      omega
    · rw [if_neg (by tauto), if_neg hxa, if_neg hxb]
      omega

/-- Filtering two distinct elements out of `finRange n` leaves `n - 2`
elements. -/
lemma length_filter_ne_pair {n : ℕ} (a b : Fin n) (hab : a ≠ b) :
    ((List.finRange n).filter (fun q => decide (q ≠ a ∧ q ≠ b))).length =
      n - 2 := by
  rw [← List.countP_eq_length_filter]
  have hpair := countP_pair a b hab (List.finRange n)
  have hca : (List.finRange n).count a = 1 :=
    List.count_eq_one_of_mem (List.nodup_finRange n) (List.mem_finRange a)
  have hcb : (List.finRange n).count b = 1 :=
    List.count_eq_one_of_mem (List.nodup_finRange n) (List.mem_finRange b)
  have hcongr : (List.finRange n).countP
      (fun q => decide (q ≠ a ∧ q ≠ b)) = (List.finRange n).countP
      (fun q => decide (¬(q = a ∨ q = b))) := by
    apply List.countP_congr
    intro q _
    simp only [decide_eq_true_eq]
    tauto
  have hsplit2 : (List.finRange n).countP (fun q => decide (¬(q = a ∨ q = b))) +
      (List.finRange n).countP (fun q => decide (q = a ∨ q = b)) = n := by
    have hlen := List.length_eq_countP_add_countP
      (fun q : Fin n => decide (q = a ∨ q = b)) (List.finRange n)
    rw [List.length_finRange] at hlen
    have hc2 : (List.finRange n).countP
        (fun q => decide (¬(decide ((q : Fin n) = a ∨ q = b) = true))) =
        (List.finRange n).countP (fun q => decide (¬(q = a ∨ q = b))) := by
      apply List.countP_congr
      intro q _
      simp only [decide_eq_true_eq]
    omega
  rw [hcongr]
  omega

/-- The twin of an index differs from it (for a positive batch). -/
lemma twin_index_ne (B : ℕ) (hB : 1 ≤ B) (p : Fin (2 * B)) :
    p ≠ twin_index B p := by
  have hpl := p.isLt
  rw [twin_index]
  by_cases hp : (p : ℕ) < B
  · rw [dif_pos hp]
    intro h
    have := congrArg Fin.val h
    simp at this
    omega
  · rw [dif_neg hp]
    intro h
    have := congrArg Fin.val h
    simp at this
    omega

/-- The correlated-samples mask clears exactly the diagonal and each
index's twin: row `p` keeps `q` iff `q ≠ p` and `q ≠ twin p`. -/
lemma mask_correlated_samples_eq_twin (B : ℕ) (p q : Fin (2 * B)) :
    mask_correlated_samples B p q = decide (q ≠ p ∧ q ≠ twin_index B p) := by
  have hpl := p.isLt
  have hql := q.isLt
  rw [mask_correlated_samples, twin_index]
  by_cases hp : (p : ℕ) < B
  · rw [dif_pos hp]
    apply decide_eq_decide.mpr
    simp only [ne_eq, Fin.ext_iff]
    omega
  · rw [dif_neg hp]
    apply decide_eq_decide.mpr
    simp only [ne_eq, Fin.ext_iff]
    omega

/-- Every row of the mask keeps exactly `2B - 2` of the `2B` columns. -/
lemma row_masked_sims_length (B d : ℕ) (temperature eps : ℚ)
    (sqrtf : ℚ → ℚ) (z_i z_j : Fin B → Fin d → ℚ) (hB : 1 ≤ B)
    (p : Fin (2 * B)) :
    (row_masked_sims B d temperature eps sqrtf z_i z_j p).length = 2 * B - 2 := by
  rw [row_masked_sims, List.length_map,
    List.filter_congr (fun q _ => mask_correlated_samples_eq_twin B p q)]
  exact length_filter_ne_pair p (twin_index B p) (twin_index_ne B hB p)

/-- `sim[mask]` has `2B * (2B - 2)` entries. -/
lemma flat_masked_sims_length (B d : ℕ) (temperature eps : ℚ)
    (sqrtf : ℚ → ℚ) (z_i z_j : Fin B → Fin d → ℚ) (hB : 1 ≤ B) :
    (flat_masked_sims B d temperature eps sqrtf z_i z_j).length =
      (2 * B) * (2 * B - 2) := by
  rw [flat_masked_sims, List.length_flatMap]
  rw [List.map_congr_left (fun p _ => by
    show (List.length ∘ row_masked_sims B d temperature eps sqrtf z_i z_j) p =
      2 * B - 2
    exact row_masked_sims_length B d temperature eps sqrtf z_i z_j hB p)]
  rw [List.map_const', List.sum_replicate, List.length_finRange, smul_eq_mul]

/-- Entry `p` of the concatenated `±B` diagonals is `sim p (twin p)`. -/
lemma positive_samples_list_getD (B d : ℕ) (temperature eps : ℚ)
    (sqrtf : ℚ → ℚ) (z_i z_j : Fin B → Fin d → ℚ) (p : Fin (2 * B)) :
    (positive_samples_list B B d temperature eps sqrtf z_i z_j).getD (p : ℕ) 0 =
      sim_matrix B d temperature eps sqrtf z_i z_j p (twin_index B p) := by
  have hpl := p.isLt
  have h2 : 2 * B - B = B := by omega
  rw [positive_samples_list, h2]
  by_cases hp : (p : ℕ) < B
  · rw [List.getD_append _ _ _ _ (by simp only [List.length_map, List.length_range]; omega)]
    rw [List.getD_eq_getElem _ _ (by simp only [List.length_map, List.length_range]; omega)]
    simp only [List.getElem_map, List.getElem_range]
    rw [sim_at, dif_pos ⟨by omega, by omega⟩]
    exact congrArg₂ _ (Fin.eta p _) (by rw [twin_index, dif_pos hp])
  · rw [List.getD_append_right _ _ _ _ (by simp only [List.length_map, List.length_range]; omega)]
    rw [List.getD_eq_getElem _ _ (by simp only [List.length_map, List.length_range]; omega)]
    simp only [List.getElem_map, List.getElem_range, List.length_map, List.length_range]
    rw [sim_at, dif_pos ⟨by omega, by omega⟩]
    refine congrArg₂ _ (by apply Fin.ext; simp; omega) ?_
    rw [twin_index, dif_neg hp]

/-- `List.range n` through the value map of `finRange n`. -/
lemma range_eq_finRange_map_val (n : ℕ) :
    List.range n = (List.finRange n).map Fin.val := by
  apply List.ext_getElem <;> simp

/-- The all-zero label list reads 0 at every position. -/
lemma getD_replicate_zero (n k : ℕ) : (List.replicate n (0 : ℕ)).getD k 0 = 0 := by
  by_cases hk : k < n
  · rw [List.getD_eq_getElem _ _ (by simpa using hk)]
    simp
  · rw [List.getD_eq_default _ _ (by simpa using hk)]

/-- The flatten-then-reshape negatives of row `p` are exactly row `p`'s
masked similarities. -/
lemma negatives_chunk_eq_row (B d : ℕ) (temperature eps : ℚ)
    (sqrtf : ℚ → ℚ) (z_i z_j : Fin B → Fin d → ℚ) (hB : 1 ≤ B) (p : Fin (2 * B)) :
    ((flat_masked_sims B d temperature eps sqrtf z_i z_j).drop
        ((p : ℕ) * (2 * B - 2))).take (2 * B - 2) =
      row_masked_sims B d temperature eps sqrtf z_i z_j p := by
  have hget : (List.finRange (2 * B)).get ⟨(p : ℕ), by simp⟩ = p := by
    rw [List.get_finRange]
  rw [flat_masked_sims]
  rw [flatMap_chunk (row_masked_sims B d temperature eps sqrtf z_i z_j)
    (2 * B - 2) (List.finRange (2 * B))
    (fun a _ => row_masked_sims_length B d temperature eps sqrtf z_i z_j hB a)
    (p : ℕ) (by simp), hget]

/-- The body of `SimCLR_Loss.forward` computes exactly the claim-side
NT-Xent loss. -/
lemma simclr_core_eq_claim (B d : ℕ) (temperature eps : ℚ)
    (sqrtf expf logf : ℚ → ℚ) (z_i z_j : Fin B → Fin d → ℚ) (hB : 1 ≤ B) :
    simclr_core B d temperature eps sqrtf expf logf z_i z_j =
      ntxent_loss_claim B d temperature eps sqrtf expf logf z_i z_j := by
  have hncols : (flat_masked_sims B d temperature eps sqrtf z_i z_j).length / (2 * B) =
      2 * B - 2 := by
    rw [flat_masked_sims_length B d temperature eps sqrtf z_i z_j hB]
    exact Nat.mul_div_cancel_left _ (by omega)
  simp only [simclr_core, ntxent_loss_claim, hncols, getD_replicate_zero]
  rw [range_eq_finRange_map_val, List.map_map]
  congr 1
  congr 1
  apply List.map_congr_left
  intro p _
  show cross_entropy_row expf logf
      ((positive_samples_list B B d temperature eps sqrtf z_i z_j).getD (p : ℕ) 0 ::
        ((flat_masked_sims B d temperature eps sqrtf z_i z_j).drop
          ((p : ℕ) * (2 * B - 2))).take (2 * B - 2)) 0 =
    cross_entropy_row expf logf
      (sim_matrix B d temperature eps sqrtf z_i z_j p (twin_index B p) ::
        row_masked_sims B d temperature eps sqrtf z_i z_j p) 0
  rw [positive_samples_list_getD,
    negatives_chunk_eq_row B d temperature eps sqrtf z_i z_j hB p]

/-- Claim C4: for matching construction/runtime batch `B ≥ 1`,
`SimCLR_Loss.forward` returns the claim-side loss: pairwise cosine
similarities divided by the temperature, positives from the `±B`
off-diagonals, negatives the mask-surviving entries of the own row,
cross entropy with label 0 on `[positive, negatives...]` for each of the
`2B` rows, summed and divided by `2B`. -/
theorem claim_c4_simclr_loss_structure (B d : ℕ) (temperature eps : ℚ)
    (sqrtf expf logf : ℚ → ℚ) (z_i z_j : Fin B → Fin d → ℚ) (hB : 1 ≤ B) :
    simclr_forward B B d temperature eps sqrtf expf logf z_i z_j =
      Except.ok (ntxent_loss_claim B d temperature eps sqrtf expf logf z_i z_j) := by
  have hlen : (positive_samples_list B B d temperature eps sqrtf z_i z_j).length =
      2 * B := by
    rw [positive_samples_list]
    simp only [List.length_append, List.length_map, List.length_range]
    omega
  simp only [simclr_forward]
  rw [if_pos hlen, dif_pos trivial]
  exact congrArg Except.ok
    (simclr_core_eq_claim B d temperature eps sqrtf expf logf z_i z_j hB)

/-- Witness for C4 at `B = 1`: the forward pass equals the claim-side loss
on a concrete pair of embeddings. -/
theorem claim_c4_witness :
    1 ≤ 1 ∧
    simclr_forward 1 1 1 1 1 id id id (fun _ _ => 2) (fun _ _ => 3) =
      Except.ok (ntxent_loss_claim 1 1 1 1 id id id (fun _ _ => 2) (fun _ _ => 3)) :=
  ⟨le_refl 1,
   claim_c4_simclr_loss_structure 1 1 1 1 id id id (fun _ _ => 2) (fun _ _ => 3)
     (le_refl 1)⟩

/-- Claim C5, amended: when the runtime batch differs from the
construction batch, `SimCLR_Loss.forward` fails with the tensor
shape-mismatch error of `positive_samples.reshape(N, 1)` (a RuntimeError),
because the mask and label tensors are sized at construction — not with a
Python assertion: `SimCLR_Loss` contains no assert statement. -/
theorem claim_c5_batch_mismatch_reshape_error (Bc Br d : ℕ)
    (temperature eps : ℚ) (sqrtf expf logf : ℚ → ℚ)
    (z_i z_j : Fin Br → Fin d → ℚ) (hne : Br ≠ Bc) :
    simclr_forward Bc Br d temperature eps sqrtf expf logf z_i z_j =
      Except.error SimErr.reshapeMismatch := by
  have hlen : (positive_samples_list Bc Br d temperature eps sqrtf z_i z_j).length ≠
      2 * Bc := by
    rw [positive_samples_list]
    simp only [List.length_append, List.length_map, List.length_range]
    omega
  simp only [simclr_forward]
  rw [if_neg hlen]

/-- Counterexample to C5 as stated: with the construction batch 128 of
`ScarfModel` and runtime batch 1, the failure is the reshape
shape-mismatch, which is not an assertion failure. -/
theorem claim_c5_counterexample :
    simclr_forward scarf_simclr_batch_size 1 1 1 0 (fun q => q) (fun q => q)
      (fun q => q) (fun _ _ => 0) (fun _ _ => 0) =
      Except.error SimErr.reshapeMismatch ∧
    SimErr.reshapeMismatch ≠ SimErr.assertFailed := by
  constructor
  · rfl
  · decide

/-- Witness for the amended C5 at construction batch 128 and runtime
batch 1. -/
theorem claim_c5_witness :
    (1 ≠ scarf_simclr_batch_size) ∧
    simclr_forward scarf_simclr_batch_size 1 1 1 0 (fun q => q) (fun q => q)
      (fun q => q) (fun _ _ => 1) (fun _ _ => 1) =
      Except.error SimErr.reshapeMismatch :=
  ⟨by decide,
   claim_c5_batch_mismatch_reshape_error scarf_simclr_batch_size 1 1 1 0
     (fun q => q) (fun q => q) (fun q => q) (fun _ _ => 1) (fun _ _ => 1)
     (by decide)⟩
